import Mathlib

/-!
Shallow embedding of the Google Apps Script daily calendar-summary program
(`MyEventsTodayEmail`, main script file) together with proofs settling the
frozen claims C1..C10 about it.

Modelling conventions:
* JS strings become `String`; the ASCII-only operations used by the script
  (`toLowerCase`, `trim`, `split`, `startsWith`, `substring`, `includes`)
  become the corresponding Lean `String` operations.
* A JS `Date` is modelled linearly as a day index (days since the epoch)
  plus milliseconds within the day; `setHours(0,0,0,0)` zeroes the
  millisecond part, `d.setDate(base.getDate() + k)` is day arithmetic, and
  `getDay()` uses the fact that the epoch day was a Thursday.  The script
  only ever moves dates by whole days from a common base, for which this
  linear model agrees with the JS calendar arithmetic.
* External collaborators (the calendar service, the two mail channels, the
  random jitter and the clock) become explicit oracle parameters.
* The execution tracker becomes an explicitly threaded metrics record.
-/

namespace CalScript

/-! ### Substring search (JS `String.prototype.includes` and regex helpers) -/

abbrev Chars := List Char

/-- Does `needle` occur contiguously inside `hay`?  (JS `hay.includes(needle)`.) -/
def hasSub : Chars → Chars → Bool
  | _, [] => true
  | [], _ :: _ => false
  | c :: t, needle => needle.isPrefixOf (c :: t) || hasSub t needle

/-- JS `hay.includes(needle)` on strings. -/
def strContains (hay needle : String) : Bool :=
  hasSub hay.data needle.data

/-- JS `s.toLowerCase()` (the script only lower-cases ASCII text). -/
def jsToLower (s : String) : String :=
  String.mk (s.data.map Char.toLower)

/-- JS `s.trim()`: strip leading and trailing whitespace. -/
def jsTrim (s : String) : String :=
  String.mk
    (((s.data.dropWhile Char.isWhitespace).reverse.dropWhile
        Char.isWhitespace).reverse)

/-- JS `s.startsWith(p)`. -/
def jsStartsWith (s p : String) : Bool :=
  p.data.isPrefixOf s.data

/-- Accumulating worker for `splitChar`: `cur` holds the reversed characters
of the piece being read. -/
def splitCharAux (sep : Char) : Chars → Chars → List String
  | cur, [] => [String.mk cur.reverse]
  | cur, c :: rest =>
    if c == sep then String.mk cur.reverse :: splitCharAux sep [] rest
    else splitCharAux sep (c :: cur) rest

/-- JS `s.split(sep)` for a one-character separator (the script splits only
on `','` and `'@'`). -/
def splitChar (sep : Char) (s : String) : List String :=
  splitCharAux sep [] s.data

/-- The suffix of `hay` after the leftmost occurrence of `needle`
(`none` when `needle` does not occur). -/
def suffixAfter (needle : Chars) : Chars → Option Chars
  | [] => if needle.isEmpty then some [] else none
  | c :: t =>
    if needle.isPrefixOf (c :: t) then some ((c :: t).drop needle.length)
    else suffixAfter needle t

/-- Matcher for the regex `/first.*second/`: some occurrence of `first` is
followed (disjointly) by an occurrence of `second`.  Such a pattern matches
iff `second` occurs after the leftmost occurrence of `first`. -/
def matchesSeq (hay first second : String) : Bool :=
  match suffixAfter first.data hay.data with
  | some rest => hasSub rest second.data
  | none => false

/-! ### The address regex of `validateRecipientData`

The source tests
`/^[a-zA-Z0-9]([a-zA-Z0-9._+-]*[a-zA-Z0-9])?@[a-zA-Z0-9]([a-zA-Z0-9.-]*[a-zA-Z0-9])?\.[a-zA-Z]{2,}$/`.
None of the character classes contains `@`, so a matching string has exactly
one `@`.  The final `[a-zA-Z]{2,}` contains no dot, so the `\.` separating
the domain from it must be the *last* dot after the `@`.  Each group
`[A]([M]*[A])?` denotes exactly the nonempty strings whose first and last
character satisfy `A` and whose interior characters satisfy `M`. -/

/-- `[a-zA-Z0-9._+-]`, the interior class of the local part. -/
def isLocalChar (c : Char) : Bool :=
  c.isAlphanum || c == '.' || c == '_' || c == '+' || c == '-'

/-- `[a-zA-Z0-9.-]`, the interior class of the domain part. -/
def isDomainChar (c : Char) : Bool :=
  c.isAlphanum || c == '.' || c == '-'

/-- Tail of `[A]([M]*[A])?` after the first character: interior characters
satisfy `mid`, the final character is alphanumeric. -/
def shapeTail (mid : Char → Bool) : Chars → Bool
  | [] => false
  | [c] => c.isAlphanum
  | c :: rest => mid c && shapeTail mid rest

/-- The group `[a-zA-Z0-9]([M]*[a-zA-Z0-9])?` anchored on a whole string. -/
def shapeOk (mid : Char → Bool) : Chars → Bool
  | [] => false
  | [c] => c.isAlphanum
  | c :: rest => c.isAlphanum && shapeTail mid rest

/-- Split a character list at its last `'.'`: `some (before, after)`. -/
def splitAtLastDot : Chars → Option (Chars × Chars)
  | [] => none
  | c :: t =>
    match splitAtLastDot t with
    | some (p, tld) => some (c :: p, tld)
    | none => if c == '.' then some ([], t) else none

/-- `emailRegex.test s` of the source, per the analysis above. -/
def emailRegexTest (s : String) : Bool :=
  match splitChar '@' s with
  | [localPart, domainPart] =>
    shapeOk isLocalChar localPart.data &&
    (match splitAtLastDot domainPart.data with
     | some (p, tld) =>
       shapeOk isDomainChar p && decide (tld.length ≥ 2) && tld.all Char.isAlpha
     | none => false)
  | _ => false

/-- `/\.\./.test s` of the source. -/
def hasConsecutiveDots (s : String) : Bool :=
  strContains s ".."

structure ValidationResult where
  isValid : Bool
  errors : List String
deriving Repr, DecidableEq

/-- `validateRecipientData(email, calendarId)`: the email must pass the
regex and must not contain consecutive dots; the calendar id must pass the
regex (the consecutive-dots test is applied to the email only). -/
def validateRecipientData (email calendarId : String) : ValidationResult :=
  let errors : List String :=
    (if email == "" || !emailRegexTest email || hasConsecutiveDots email then
      ["Invalid email format: \"" ++ email ++ "\""]
     else []) ++
    (if calendarId == "" || !emailRegexTest calendarId then
      ["Invalid calendar ID format: \"" ++ calendarId ++ "\""]
     else [])
  { isValid := errors.length == 0, errors := errors }

/-! ### JS dates -/

/-- Milliseconds per day. -/
def msPerDay : Int := 86400000

/-- A JS `Date` in the linear no-DST model: `days` since the epoch (the
calendar date) and `ms` within the day. -/
structure JsDate where
  days : Int
  ms : Int
deriving Repr, DecidableEq

/-- `getTime()`. -/
def JsDate.getTime (d : JsDate) : Int :=
  d.days * msPerDay + d.ms

/-- `setHours(0, 0, 0, 0)`: truncate to local midnight. -/
def JsDate.setHoursZero (d : JsDate) : JsDate :=
  { d with ms := 0 }

/-- `d.setDate(d.getDate() + k)`: move a date by `k` whole days. -/
def JsDate.addDays (d : JsDate) (k : Int) : JsDate :=
  { d with days := d.days + k }

/-- `getDay()`: 0 = Sunday .. 6 = Saturday.  1970-01-01 was a Thursday (4). -/
def JsDate.getDay (d : JsDate) : Int :=
  (d.days + 4) % 7

/-! ### `calculateDateRange` and `shouldSendEmail` -/

structure DateRange where
  startDate : JsDate
  endDate : JsDate
  description : String
deriving Repr, DecidableEq

/-- `calculateDateRange(dateRange)` evaluated at the current instant `now`
(the source reads `new Date()`); `today` is `now` truncated to midnight. -/
def calculateDateRange (now : JsDate) (dateRange : String) : DateRange :=
  let today := now.setHoursZero
  if dateRange == "today" then
    { startDate := today, endDate := today.addDays 1, description := "today" }
  else if dateRange == "tomorrow" then
    { startDate := today.addDays 1, endDate := today.addDays 2,
      description := "tomorrow" }
  else if dateRange == "next 3 days" || dateRange == "next3days" then
    { startDate := today, endDate := today.addDays 3,
      description := "the next 3 days" }
  else if dateRange == "this week" || dateRange == "thisweek" then
    let startDate := today.addDays (-today.getDay)
    { startDate := startDate, endDate := startDate.addDays 7,
      description := "this week" }
  else if dateRange == "next week" || dateRange == "nextweek" then
    let nextWeekStart := today.addDays (7 - today.getDay)
    { startDate := nextWeekStart, endDate := nextWeekStart.addDays 7,
      description := "next week" }
  else if dateRange == "weekdays only" || dateRange == "weekdays" then
    { startDate := today, endDate := today.addDays 1,
      description := "today (weekdays only)" }
  else
    { startDate := today, endDate := today.addDays 1, description := "today" }

/-- `shouldSendEmail(frequency)` evaluated at the current instant `now`. -/
def shouldSendEmail (now : JsDate) (frequency : String) : Bool :=
  let dayOfWeek := now.getDay
  if frequency == "daily" then true
  else if frequency == "weekdays only" || frequency == "weekdays" then
    decide (1 ≤ dayOfWeek) && decide (dayOfWeek ≤ 5)
  else if frequency == "mondays only" || frequency == "monday" then
    dayOfWeek == 1
  else if frequency == "wednesdays only" || frequency == "wednesday" then
    dayOfWeek == 3
  else if frequency == "fridays only" || frequency == "friday" then
    dayOfWeek == 5
  else if frequency == "weekends only" || frequency == "weekends" then
    dayOfWeek == 0 || dayOfWeek == 6
  else if frequency == "never" || frequency == "disabled" then false
  else true

/-! ### Configuration loading (`loadConfiguration`) -/

/-- The preference map built from a configuration row.  The source stores
keys only when set; an absent key is modelled by `none` (and `use24Hour`,
read downstream as `preferences.use24Hour || false`, by `false`). -/
structure Preferences where
  timezone : Option String := none
  use24Hour : Bool := false
  dateRange : Option String := none
  frequency : Option String := none
  filterKeywords : Option (List String) := none
deriving Repr, DecidableEq

/-- One per-calendar recipient record pushed by `loadConfiguration`. -/
structure Recipient where
  email : String
  calendarId : String
  preferences : Preferences
  isMultiCalendar : Bool
  calendarIndex : Nat
  totalCalendars : Nat
deriving Repr, DecidableEq

/-- One data row of the configuration sheet.  The two required cells are
strings (`""` when blank, which JS treats as falsy); an optional cell is
`none` when its column is missing and `some` of the cell text otherwise. -/
structure ConfigRow where
  recipientEmail : String
  calendarId : String
  timezone : Option String := none
  timeFormat : Option String := none
  dateRange : Option String := none
  frequency : Option String := none
  status : Option String := none
  filterKeywords : Option String := none
deriving Repr, DecidableEq

/-- JS truthiness of an optional string cell (`cell && ...`). -/
def cellTruthy (cell : Option String) : Bool :=
  match cell with
  | some s => s != ""
  | none => false

/-- `status && status.trim().toLowerCase() === 'disabled'`. -/
def statusDisabled (status : Option String) : Bool :=
  match status with
  | some s => s != "" && jsToLower (jsTrim s) == "disabled"
  | none => false

/-- `calendarId.split(',').map(id => id.trim()).filter(id => id)`. -/
def splitCalendarIds (cell : String) : List String :=
  ((splitChar ',' cell).map jsTrim).filter (fun id => id != "")

/-- `filterKeywords.split(',').map(k => k.trim().toLowerCase()).filter(k => k)`. -/
def parseFilterKeywords (cell : String) : List String :=
  ((splitChar ',' cell).map (fun keyword => jsToLower (jsTrim keyword))).filter
    (fun keyword => keyword != "")

/-- The `preferences` object built in the row loop of `loadConfiguration`. -/
def buildPreferences (row : ConfigRow) : Preferences :=
  let p : Preferences := {}
  let p := match row.timezone with
    | some tz => if tz != "" && jsTrim tz != "" then { p with timezone := some (jsTrim tz) } else p
    | none => p
  let p := match row.timeFormat with
    | some tf => if tf != "" && jsToLower (jsTrim tf) == "24h" then { p with use24Hour := true } else p
    | none => p
  let p := match row.dateRange with
    | some dr => if dr != "" && jsTrim dr != "" then { p with dateRange := some (jsToLower (jsTrim dr)) } else p
    | none => p
  let p := match row.frequency with
    | some fr => if fr != "" && jsTrim fr != "" then { p with frequency := some (jsToLower (jsTrim fr)) } else p
    | none => p
  let p := match row.filterKeywords with
    | some fk => if fk != "" && jsTrim fk != "" then { p with filterKeywords := some (parseFilterKeywords fk) } else p
    | none => p
  p

/-- The body of the row loop of `loadConfiguration` for one row: skip on a
blank required cell, on failed validation of the raw cells, or on a disabled
status; otherwise fan the (comma-split) calendar-id cell out into one
`Recipient` per individually valid calendar id. -/
def processRow (row : ConfigRow) : List Recipient :=
  if row.recipientEmail == "" || row.calendarId == "" then []
  else if !(validateRecipientData row.recipientEmail row.calendarId).isValid then []
  else if statusDisabled row.status then []
  else
    let preferences := buildPreferences row
    let calendarIds := splitCalendarIds row.calendarId
    calendarIds.filterMap (fun singleCalendarId =>
      if (validateRecipientData row.recipientEmail singleCalendarId).isValid then
        some { email := row.recipientEmail
               calendarId := singleCalendarId
               preferences := preferences
               isMultiCalendar := decide (calendarIds.length > 1)
               calendarIndex := calendarIds.indexOf singleCalendarId
               totalCalendars := calendarIds.length }
      else none)

/-- The recipients array produced by `loadConfiguration` from the data rows
(the sheet access, header lookup and admin-mail side paths are external). -/
def loadConfiguration (rows : List ConfigRow) : List Recipient :=
  rows.flatMap processRow

/-! ### Events and keyword filtering (`filterEventsByKeywords`) -/

/-- A calendar event (external, read-only): the fields the script reads. -/
structure Event where
  title : String
  description : String
  location : String
  startTime : Int
deriving Repr, DecidableEq

/-- `` `${title} ${description} ${location}` `` with each part lower-cased. -/
def eventSearchText (e : Event) : String :=
  jsToLower e.title ++ " " ++ jsToLower e.description ++ " " ++ jsToLower e.location

/-- The filter predicate of `filterEventsByKeywords`. -/
def eventMatchesKeywords (filterKeywords : List String) (e : Event) : Bool :=
  let eventText := eventSearchText e
  let includeKeywords :=
    (filterKeywords.filter (fun k => !jsStartsWith k "-")).map jsToLower
  let excludeKeywords :=
    (filterKeywords.filter (fun k => jsStartsWith k "-")).map
      (fun k => jsToLower (k.drop 1))
  let includesMatch :=
    includeKeywords.length == 0 ||
      includeKeywords.all (fun keyword => strContains eventText keyword)
  let excludesMatch :=
    excludeKeywords.all (fun keyword => !strContains eventText keyword)
  includesMatch && excludesMatch

/-- `filterEventsByKeywords(events, filterKeywords)`. -/
def filterEventsByKeywords (events : List Event) (filterKeywords : List String) :
    List Event :=
  if filterKeywords.length == 0 then events
  else events.filter (eventMatchesKeywords filterKeywords)

/-! ### The execution tracker (`ExecutionTracker`) -/

structure ErrorRecord where
  message : String
  context : String
deriving Repr, DecidableEq

/-- `this.metrics` of `ExecutionTracker`. -/
structure Metrics where
  calendarsProcessed : Nat := 0
  eventsFound : Nat := 0
  emailsSent : Nat := 0
  emailsFailed : Nat := 0
  retriesPerformed : Nat := 0
  errors : List ErrorRecord := []
deriving Repr, DecidableEq

def Metrics.incrementCalendars (m : Metrics) : Metrics :=
  { m with calendarsProcessed := m.calendarsProcessed + 1 }

def Metrics.addEvents (m : Metrics) (count : Nat) : Metrics :=
  { m with eventsFound := m.eventsFound + count }

def Metrics.incrementEmailsSent (m : Metrics) : Metrics :=
  { m with emailsSent := m.emailsSent + 1 }

def Metrics.incrementEmailsFailed (m : Metrics) : Metrics :=
  { m with emailsFailed := m.emailsFailed + 1 }

/-- `incrementRetries()` — defined by the source but never called. -/
def Metrics.incrementRetries (m : Metrics) : Metrics :=
  { m with retriesPerformed := m.retriesPerformed + 1 }

def Metrics.addError (m : Metrics) (message context : String) : Metrics :=
  { m with errors := m.errors ++ [{ message := message, context := context }] }

/-! ### Grouping and batched fetching (`fetchCalendarDataBatched`) -/

/-- JS `o || d` for an optional preference string (`""` is falsy). -/
def jsOrDefault (o : Option String) (d : String) : String :=
  match o with
  | some s => if s == "" then d else s
  | none => d

/-- `` `${calendarId}|${dateRange.startDate.getTime()}|${dateRange.endDate.getTime()}` ``. -/
def groupKeyOf (calendarId : String) (dr : DateRange) : String :=
  calendarId ++ "|" ++ toString dr.startDate.getTime ++ "|" ++
    toString dr.endDate.getTime

/-- The date range the loop computes for a recipient. -/
def recipDateRange (now : JsDate) (r : Recipient) : DateRange :=
  calculateDateRange now (jsOrDefault r.preferences.dateRange "today")

/-- The group key the loop computes for a recipient. -/
def recipKey (now : JsDate) (r : Recipient) : String :=
  groupKeyOf r.calendarId (recipDateRange now r)

structure CalendarGroup where
  calendarId : String
  dateRange : DateRange
  recipients : List Recipient
deriving Repr, DecidableEq

/-- One step of the grouping loop: append the recipient to its group,
creating the group (at the end, in JS object insertion order) when absent. -/
def insertRecipient (now : JsDate) (groups : List (String × CalendarGroup))
    (r : Recipient) : List (String × CalendarGroup) :=
  let dr := recipDateRange now r
  let key := groupKeyOf r.calendarId dr
  if groups.any (fun g => g.1 == key) then
    groups.map (fun g =>
      if g.1 == key then (g.1, { g.2 with recipients := g.2.recipients ++ [r] })
      else g)
  else
    groups ++ [(key, { calendarId := r.calendarId, dateRange := dr,
                       recipients := [r] })]

/-- The frequency gate applied first by `fetchCalendarDataBatched`. -/
def activeRecipients (now : JsDate) (recipients : List Recipient) :
    List Recipient :=
  recipients.filter (fun r =>
    shouldSendEmail now (jsOrDefault r.preferences.frequency "daily"))

/-- The `calendarGroups` object, as an insertion-ordered association list. -/
def buildCalendarGroups (now : JsDate) (active : List Recipient) :
    List (String × CalendarGroup) :=
  active.foldl (insertRecipient now) []

/-- The external calendar collaborator: one invocation stands for the
(retried) `getCalendarById` + `getEvents` pair the loop performs for a
group, returning the calendar name and its events, or the thrown message. -/
structure CalendarService where
  fetchCalendar : String → DateRange → Except String (String × List Event)

/-- One entry of the `calendarCache` object. -/
structure CacheEntry where
  calendarName : Option String
  events : List Event
  recipients : List Recipient
  dateRange : DateRange
  success : Bool
  error : Option String
deriving Repr, DecidableEq

/-- The arguments of the external fetch a group gives rise to:
(calendar id, interval-start epoch, interval-end epoch). -/
def fetchArgsOf (g : String × CalendarGroup) : String × Int × Int :=
  (g.2.calendarId, g.2.dateRange.startDate.getTime, g.2.dateRange.endDate.getTime)

/-- The cache entry the fetch loop writes for one group. -/
def fetchGroupEntry (svc : CalendarService) (g : String × CalendarGroup) :
    String × CacheEntry :=
  match svc.fetchCalendar g.2.calendarId g.2.dateRange with
  | .ok (name, events) =>
    (g.1, { calendarName := some name, events := events,
            recipients := g.2.recipients, dateRange := g.2.dateRange,
            success := true, error := none })
  | .error msg =>
    (g.1, { calendarName := none, events := [],
            recipients := g.2.recipients, dateRange := g.2.dateRange,
            success := false, error := some msg })

/-- The tracker update the fetch loop performs for one group. -/
def fetchGroupMetrics (svc : CalendarService) (m : Metrics)
    (g : String × CalendarGroup) : Metrics :=
  match svc.fetchCalendar g.2.calendarId g.2.dateRange with
  | .ok (_, events) => (m.incrementCalendars).addEvents events.length
  | .error msg => m.addError msg ("Accessing calendar " ++ g.2.calendarId)

/-- The outcome of `fetchCalendarDataBatched`: the updated tracker, the
`calendarCache`, and the instrumented trace of the arguments of every
external fetch the loop performed (one per group iteration). -/
structure FetchOutcome where
  tracker : Metrics
  cache : List (String × CacheEntry)
  fetched : List (String × Int × Int)
deriving Repr, DecidableEq

/-- One iteration of the fetch loop: perform the group's single external
fetch (recorded in `fetched`), then write its tracker update and cache
entry. -/
def fetchStep (svc : CalendarService) (st : FetchOutcome)
    (g : String × CalendarGroup) : FetchOutcome :=
  { tracker := fetchGroupMetrics svc st.tracker g
    cache := st.cache ++ [fetchGroupEntry svc g]
    fetched := st.fetched ++ [fetchArgsOf g] }

/-- `fetchCalendarDataBatched(recipients, tracker)`: frequency-filter,
group, then fetch each group once. -/
def fetchCalendarDataBatched (svc : CalendarService) (now : JsDate)
    (recipients : List Recipient) (tracker : Metrics) : FetchOutcome :=
  let active := activeRecipients now recipients
  let calendarGroups := buildCalendarGroups now active
  calendarGroups.foldl (fetchStep svc)
    { tracker := tracker, cache := [], fetched := [] }

/-! ### Retry (`retryOperation`, `isRetryableError`) -/

/-- A thrown JS error, reduced to the one field the script reads. -/
structure JsError where
  message : String
deriving Repr, DecidableEq

/-- `isRetryableError(error)`: the fixed case-insensitive pattern list,
tested against the error message.  `/i` is modelled by lower-casing the
message and matching lower-case literals; `/a.*b/` by `matchesSeq`. -/
def isRetryableError (error : JsError) : Bool :=
  let m := jsToLower error.message
  strContains m "service is currently unavailable" ||
  strContains m "temporary failure" ||
  strContains m "rate limit" ||
  matchesSeq m "quota" "exceeded" ||
  strContains m "timeout" ||
  matchesSeq m "network" "error" ||
  matchesSeq m "internal" "error" ||
  matchesSeq m "service" "error"

/-- The retry loop from the current `attempt` with `remaining` further
attempts allowed after this one.  `op n` is the outcome of the n-th
invocation of the operation; `jitter n` stands for the `Math.random() * 1000`
drawn on the n-th failure.  Returns (result, number of invocations made,
the backoff delays slept). -/
def retryAux {α : Type} (op : Nat → Except JsError α) (baseDelay : Rat)
    (jitter : Nat → Rat) : Nat → Nat → Except JsError α × Nat × List Rat
  | attempt, 0 =>
    match op attempt with
    | .ok v => (.ok v, attempt + 1, [])
    | .error e => (.error e, attempt + 1, [])
  | attempt, remaining + 1 =>
    match op attempt with
    | .ok v => (.ok v, attempt + 1, [])
    | .error e =>
      if isRetryableError e then
        let delay := baseDelay * 2 ^ attempt + jitter attempt
        let rest := retryAux op baseDelay jitter (attempt + 1) remaining
        (rest.1, rest.2.1, delay :: rest.2.2)
      else (.error e, attempt + 1, [])

/-- `retryOperation(operation, maxRetries, baseDelay)` (source defaults:
`maxRetries = 3`, `baseDelay = 1000`; every call site uses the defaults). -/
def retryOperation {α : Type} (op : Nat → Except JsError α) (maxRetries : Nat)
    (baseDelay : Rat) (jitter : Nat → Rat) : Except JsError α × Nat × List Rat :=
  retryAux op baseDelay jitter 0 maxRetries

/-! ### Reconciliation and the email queue (`sendDailyEventSummary` body) -/

/-- One successful calendar source pushed onto `recipientData[email].calendars`
(the source stores the calendar object; its name is what is later read). -/
structure CalSource where
  calendar : Option String
  events : List Event
deriving Repr, DecidableEq

/-- One value of the `recipientData` consolidation object. -/
structure RecipientData where
  recipient : Recipient
  calendars : List CalSource
  dateRange : DateRange
  hasErrors : Bool
  errors : List (String × String)
deriving Repr, DecidableEq

/-- The inner loop body of the consolidation: upsert the recipient's entry,
then record this cache entry as a success source or as an error. -/
def consolidateStep (entry : CacheEntry) (acc : List (String × RecipientData))
    (r : Recipient) : List (String × RecipientData) :=
  let acc :=
    if acc.any (fun p => p.1 == r.email) then acc
    else acc ++ [(r.email,
      { recipient := r, calendars := [], dateRange := entry.dateRange,
        hasErrors := false, errors := [] })]
  acc.map (fun p =>
    if p.1 == r.email then
      (p.1,
        if entry.success then
          { p.2 with calendars := p.2.calendars ++
              [{ calendar := entry.calendarName, events := entry.events }] }
        else
          { p.2 with hasErrors := true,
                     errors := p.2.errors ++
                       [((match entry.calendarName with
                          | some n => n
                          | none => "Unknown"), entry.error.getD "")] })
    else p)

/-- The `recipientData` object: group calendar data by recipient email,
in JS object insertion order. -/
def consolidate (cache : List (String × CacheEntry)) :
    List (String × RecipientData) :=
  cache.foldl (fun acc kc => kc.2.recipients.foldl (consolidateStep kc.2) acc) []

/-- A queued outbound message.  The error notice carries its literal body;
the summary message carries the computed subject together with the data the
source hands to the external template renderer `generateEmailBody`
(recipient, display name, merged events, preferences, date range). -/
inductive QueuedEmail where
  | errorNotice (recipientEmail : String) (subject : String) (body : String)
  | summary (recipientEmail : String) (subject : String) (events : List Event)
      (calendarDisplayName : String) (preferences : Preferences)
      (dateRange : DateRange)
deriving Repr, DecidableEq

/-- The address a queued message is sent to. -/
def QueuedEmail.sendTo : QueuedEmail → String
  | .errorNotice t _ _ => t
  | .summary t _ _ _ _ _ => t

/-- `desc.charAt(0).toUpperCase() + desc.slice(1)`. -/
def capitalizeFirst (s : String) : String :=
  match s.data with
  | [] => ""
  | c :: rest => String.mk (c.toUpper :: rest)

/-- `allEvents.sort((a, b) => a.getStartTime() - b.getStartTime())`
(stable, per the JS specification). -/
def sortEventsByStart (events : List Event) : List Event :=
  events.mergeSort (fun a b => decide (a.startTime ≤ b.startTime))

/-- The body of the all-calendars-failed notification. -/
def errorNoticeBody (recipientEmail : String) (errors : List (String × String)) :
    String :=
  "Hello " ++ ((splitChar '@' recipientEmail).headD "") ++
  ",\n\nYour daily calendar summary could not be generated because calendars were not found or accessible. Please check the Calendar IDs in the configuration sheet.\n\nErrors: " ++
  String.intercalate ", " (errors.map (fun e => e.2))

/-- The per-recipient branch of the queue-building loop: either the
error notice (every calendar failed) or the normal summary message. -/
def processRecipient (p : String × RecipientData) : QueuedEmail :=
  let recipientEmail := p.1
  let data := p.2
  if data.hasErrors && decide (data.calendars.length = 0) then
    .errorNotice recipientEmail "Calendar Summary Error: Calendars Not Found"
      (errorNoticeBody recipientEmail data.errors)
  else
    let allEvents := data.calendars.flatMap (fun c => c.events)
    let allEvents :=
      match data.recipient.preferences.filterKeywords with
      | some filterKeywords => filterEventsByKeywords allEvents filterKeywords
      | none => allEvents
    let allEvents := sortEventsByStart allEvents
    let calendarNames := data.calendars.map (fun c => c.calendar.getD "")
    let calendarDisplayName :=
      if decide (calendarNames.length > 1) then
        toString calendarNames.length ++ " calendars"
      else calendarNames.headD ""
    let subject :=
      if data.dateRange.description != "today" then
        "Your Events " ++ capitalizeFirst data.dateRange.description
      else "Your Events for the Day"
    .summary recipientEmail subject allEvents calendarDisplayName
      data.recipient.preferences data.dateRange

/-- The `emailQueue` built by `sendDailyEventSummary`: exactly one message
per consolidated recipient, in consolidation order. -/
def buildEmailQueue (cache : List (String × CacheEntry)) : List QueuedEmail :=
  (consolidate cache).map processRecipient

/-! ### Batched sending (`sendEmailsBatched`) -/

/-- The two mail channels, as per-message per-invocation outcome oracles
(message position ↦ invocation number ↦ outcome), plus the jitter draws
consumed by the retry wrappers. -/
structure SendEnv where
  primaryAttempts : Nat → Nat → Except JsError Unit
  fallbackAttempts : Nat → Nat → Except JsError Unit
  primaryJitter : Nat → Nat → Rat
  fallbackJitter : Nat → Nat → Rat

/-- Result of `retryOperation(() => GmailApp.sendEmail(...))` for message `i`. -/
def primaryResult (env : SendEnv) (i : Nat) : Except JsError Unit :=
  (retryOperation (env.primaryAttempts i) 3 1000 (env.primaryJitter i)).1

/-- Result of the fallback `retryOperation(() => MailApp.sendEmail(...))`. -/
def fallbackResult (env : SendEnv) (i : Nat) : Except JsError Unit :=
  (retryOperation (env.fallbackAttempts i) 3 1000 (env.fallbackJitter i)).1

/-- The per-message body of `sendEmailsBatched`: primary channel with retry;
on exhaustion record the error and try the fallback channel with retry; a
double failure additionally increments `emailsFailed` and records the
fallback error. -/
def sendOneEmail (env : SendEnv) (i : Nat) (msg : QueuedEmail) (m : Metrics) :
    Metrics :=
  match primaryResult env i with
  | .ok _ => m.incrementEmailsSent
  | .error e =>
    let m := m.addError e.message ("Sending email to " ++ msg.sendTo)
    match fallbackResult env i with
    | .ok _ => m.incrementEmailsSent
    | .error fallbackError =>
      (m.incrementEmailsFailed).addError fallbackError.message
        ("Fallback email to " ++ msg.sendTo)

/-- The message loop of `sendEmailsBatched`.  The batch slicing of the
source (size 10, 100 ms pause between batches) only inserts sleeps between
fixed positions; the messages are processed one by one in queue order either
way, so the tracker updates are those of this plain loop. -/
def sendAux (env : SendEnv) : Nat → List QueuedEmail → Metrics → Metrics
  | _, [], m => m
  | i, msg :: rest, m => sendAux env (i + 1) rest (sendOneEmail env i msg m)

/-- `sendEmailsBatched(emailQueue, tracker)`. -/
def sendEmailsBatched (env : SendEnv) (emailQueue : List QueuedEmail)
    (tracker : Metrics) : Metrics :=
  sendAux env 0 emailQueue tracker

/-! ### Run summary (`getSummary`, `generateAdminSummary`) -/

structure QuotaUsage where
  calendarReads : Nat
  emailSends : Nat
  sheetReads : Nat
  totalApiCalls : Nat
deriving Repr, DecidableEq

/-- `getQuotaUsageEstimate()`. -/
def getQuotaUsageEstimate (m : Metrics) : QuotaUsage :=
  let calendarReads := m.calendarsProcessed * 2
  let emailSends := m.emailsSent + m.emailsFailed
  let sheetReads := 1
  { calendarReads := calendarReads, emailSends := emailSends,
    sheetReads := sheetReads,
    totalApiCalls := calendarReads + emailSends + sheetReads }

structure RunSummary where
  executionTimeFormatted : String
  metrics : Metrics
  quotaUsage : QuotaUsage
  success : Bool
deriving Repr, DecidableEq

/-- `formatDuration(ms)`. -/
def formatDuration (ms : Nat) : String :=
  let seconds := ms / 1000
  let minutes := seconds / 60
  if minutes > 0 then toString minutes ++ "m " ++ toString (seconds % 60) ++ "s"
  else toString seconds ++ "s"

/-- `getSummary()`, with the elapsed wall time as a parameter. -/
def getSummary (m : Metrics) (executionTimeMs : Nat) : RunSummary :=
  { executionTimeFormatted := formatDuration executionTimeMs
    metrics := m
    quotaUsage := getQuotaUsageEstimate m
    success := decide (m.errors.length = 0) && decide (m.emailsFailed = 0) }

/-- The numbered error lines of the admin report. -/
def errorLines (errors : List ErrorRecord) : String :=
  String.join (errors.enum.map (fun ie =>
    toString (ie.1 + 1) ++ ". [" ++ ie.2.context ++ "] " ++ ie.2.message ++ "\n"))

/-- `generateAdminSummary(summary)`. -/
def generateAdminSummary (summary : RunSummary) : String :=
  let metrics := summary.metrics
  let quotaUsage := summary.quotaUsage
  "Daily Calendar Summary Script - Execution Report\n\n" ++
  "Status: " ++ (if summary.success then "✅ SUCCESS" else "❌ FAILED") ++ "\n" ++
  "Execution Time: " ++ summary.executionTimeFormatted ++ "\n\n" ++
  "📊 METRICS:\n" ++
  "• Calendars Processed: " ++ toString metrics.calendarsProcessed ++ "\n" ++
  "• Events Found: " ++ toString metrics.eventsFound ++ "\n" ++
  "• Emails Sent: " ++ toString metrics.emailsSent ++ "\n" ++
  "• Email Failures: " ++ toString metrics.emailsFailed ++ "\n" ++
  "• Retries Performed: " ++ toString metrics.retriesPerformed ++ "\n\n" ++
  "🔧 QUOTA USAGE ESTIMATE:\n" ++
  "• Calendar API Reads: " ++ toString quotaUsage.calendarReads ++ "\n" ++
  "• Email Sends: " ++ toString quotaUsage.emailSends ++ "\n" ++
  "• Sheet Reads: " ++ toString quotaUsage.sheetReads ++ "\n" ++
  "• Total API Calls: " ++ toString quotaUsage.totalApiCalls ++ "\n\n" ++
  (if decide (metrics.errors.length > 0) then
    "🚨 ERRORS (" ++ toString metrics.errors.length ++ "):\n" ++
    errorLines metrics.errors ++ "\n"
   else "") ++
  "\n🤖 Generated by Calendar Summary Script"

/-! ### The whole run (`sendDailyEventSummary`) -/

structure RunOutcome where
  tracker : Metrics
  emailQueue : List QueuedEmail
  adminBody : String
deriving Repr, DecidableEq

/-- The main flow of `sendDailyEventSummary` on a successfully loaded
configuration: load, fetch batched, build the queue, send batched, then
produce the admin report from the tracker summary.  (The null-configuration
early return and the top-level catch only shorten this flow; neither path
touches `retriesPerformed`.) -/
def sendDailyEventSummary (svc : CalendarService) (env : SendEnv) (now : JsDate)
    (rows : List ConfigRow) (executionTimeMs : Nat) : RunOutcome :=
  let tracker : Metrics := {}
  let recipients := loadConfiguration rows
  let fo := fetchCalendarDataBatched svc now recipients tracker
  let emailQueue := buildEmailQueue fo.cache
  let tracker := sendEmailsBatched env emailQueue fo.tracker
  let summary := getSummary tracker executionTimeMs
  { tracker := tracker, emailQueue := emailQueue,
    adminBody := generateAdminSummary summary }

/-! ## Theorems settling the claims -/

/-- Claim C7: `calculateDateRange('today')` at a fixed instant returns
`startDate` = the instant truncated to midnight, `endDate` = `startDate`
plus 24 hours, and description `today`; and every preference string not
among the recognized cases returns exactly the result of `'today'`. -/
theorem calculateDateRange_today_default (now : JsDate) (s : String) :
    ((calculateDateRange now "today").startDate = now.setHoursZero ∧
     (calculateDateRange now "today").endDate.getTime =
       (calculateDateRange now "today").startDate.getTime + 86400000 ∧
     (calculateDateRange now "today").description = "today") ∧
    (s ∉ (["today", "tomorrow", "next 3 days", "next3days", "this week",
           "thisweek", "next week", "nextweek", "weekdays only",
           "weekdays"] : List String) →
      calculateDateRange now s = calculateDateRange now "today") := by
  constructor
  · refine ⟨rfl, ?_, rfl⟩
    simp [calculateDateRange, JsDate.addDays, JsDate.setHoursZero,
      JsDate.getTime, msPerDay]
    ring
  · intro h
    simp only [List.mem_cons, not_or, List.mem_singleton] at h
    obtain ⟨h1, h2, h3, h4, h5, h6, h7, h8, h9, h10⟩ := h
    simp [calculateDateRange, h1, h2, h3, h4, h5, h6, h7, h8, h9, h10]

/-- Claim C8: `calculateDateRange('weekdays')` and
`calculateDateRange('weekdays only')` return the same `startDate` and
`endDate` as `calculateDateRange('today')`, differing only in the
description `today (weekdays only)`; hence a `weekdays` recipient and a
`today` recipient on the same calendar get the same group key. -/
theorem calculateDateRange_weekdays_shares_interval (now : JsDate)
    (r1 r2 : Recipient)
    (hcal : r1.calendarId = r2.calendarId)
    (h1 : r1.preferences.dateRange = some "weekdays" ∨
          r1.preferences.dateRange = some "weekdays only")
    (h2 : r2.preferences.dateRange = some "today") :
    (calculateDateRange now "weekdays").startDate =
      (calculateDateRange now "today").startDate ∧
    (calculateDateRange now "weekdays").endDate =
      (calculateDateRange now "today").endDate ∧
    (calculateDateRange now "weekdays only").startDate =
      (calculateDateRange now "today").startDate ∧
    (calculateDateRange now "weekdays only").endDate =
      (calculateDateRange now "today").endDate ∧
    (calculateDateRange now "weekdays").description =
      "today (weekdays only)" ∧
    (calculateDateRange now "weekdays only").description =
      "today (weekdays only)" ∧
    recipKey now r1 = recipKey now r2 := by
  refine ⟨rfl, rfl, rfl, rfl, rfl, rfl, ?_⟩
  rcases h1 with h1 | h1 <;>
    simp [recipKey, recipDateRange, jsOrDefault, h1, h2, hcal, groupKeyOf,
      calculateDateRange]

/-- A fixed instant used by concrete witnesses: some afternoon millisecond
of a day with index 20000. -/
def nowW : JsDate := { days := 20000, ms := 50000000 }

/-- A `weekdays` recipient on calendar `cal@x.com`. -/
def recipW1 : Recipient :=
  { email := "a@x.com", calendarId := "cal@x.com"
    preferences := { dateRange := some "weekdays" }
    isMultiCalendar := false, calendarIndex := 0, totalCalendars := 1 }

/-- A `today` recipient on the same calendar `cal@x.com`. -/
def recipW2 : Recipient :=
  { email := "b@x.com", calendarId := "cal@x.com"
    preferences := { dateRange := some "today" }
    isMultiCalendar := false, calendarIndex := 0, totalCalendars := 1 }

/-- Witness for C8 at a concrete instant and concrete recipients. -/
theorem calculateDateRange_weekdays_shares_interval_witness :
    (calculateDateRange nowW "weekdays").startDate =
      (calculateDateRange nowW "today").startDate ∧
    (calculateDateRange nowW "weekdays").endDate =
      (calculateDateRange nowW "today").endDate ∧
    (calculateDateRange nowW "weekdays only").startDate =
      (calculateDateRange nowW "today").startDate ∧
    (calculateDateRange nowW "weekdays only").endDate =
      (calculateDateRange nowW "today").endDate ∧
    (calculateDateRange nowW "weekdays").description =
      "today (weekdays only)" ∧
    (calculateDateRange nowW "weekdays only").description =
      "today (weekdays only)" ∧
    recipKey nowW recipW1 = recipKey nowW recipW2 :=
  calculateDateRange_weekdays_shares_interval nowW recipW1 recipW2 rfl
    (Or.inl rfl) rfl

/-- Claim C9 (amended): the consecutive-dots rule is enforced on the email
argument only — an email containing `..` always yields `isValid = false`
with the email-format error recorded (a calendar id containing `..` is
checked only against the base regex; see the counterexample). -/
theorem validateRecipientData_doubled_dot_email (email calendarId : String)
    (h : hasConsecutiveDots email = true) :
    (validateRecipientData email calendarId).isValid = false ∧
    ("Invalid email format: \"" ++ email ++ "\"") ∈
      (validateRecipientData email calendarId).errors := by
  simp [validateRecipientData, h]

/-- Witness for the amended C9 at concrete strings. -/
theorem validateRecipientData_doubled_dot_email_witness :
    (validateRecipientData "a..b@example.com" "calendar@gmail.com").isValid =
      false ∧
    ("Invalid email format: \"" ++ "a..b@example.com" ++ "\"") ∈
      (validateRecipientData "a..b@example.com" "calendar@gmail.com").errors :=
  validateRecipientData_doubled_dot_email "a..b@example.com"
    "calendar@gmail.com" (by decide)

/-- Counterexample to C9 as stated: a calendar id containing a doubled dot
(and otherwise matching the regex) is accepted, because the source applies
the consecutive-dots test only to the email argument. -/
theorem validateRecipientData_calendarId_doubled_dot_cex :
    hasConsecutiveDots "a..b@example.com" = true ∧
    (validateRecipientData "user@example.com" "a..b@example.com").isValid =
      true := by
  decide

/-- The multi-calendar configuration row from the repository's own test
`loadConfiguration - handles multiple calendars per recipient`. -/
def multiCalendarRow : ConfigRow :=
  { recipientEmail := "user@example.com"
    calendarId := "cal1@gmail.com,cal2@gmail.com,cal3@gmail.com" }

/-- Claim C2 (code bug): the row's three calendar ids are individually
valid and the row is not disabled, yet `loadConfiguration` produces no
record at all for it — the pre-split validation at the top of the row loop
runs the address regex on the raw comma-joined cell, which can never match,
so every multi-calendar row is dropped (the repository's own test expects
three records here). -/
theorem processRow_drops_comma_joined_cell :
    processRow multiCalendarRow = [] ∧
    splitCalendarIds multiCalendarRow.calendarId =
      ["cal1@gmail.com", "cal2@gmail.com", "cal3@gmail.com"] ∧
    (validateRecipientData "user@example.com" "cal1@gmail.com").isValid =
      true ∧
    (validateRecipientData "user@example.com" "cal2@gmail.com").isValid =
      true ∧
    (validateRecipientData "user@example.com" "cal3@gmail.com").isValid =
      true ∧
    statusDisabled multiCalendarRow.status = false ∧
    loadConfiguration [multiCalendarRow] = [] := by
  decide

/-- The claim-side retention predicate of C6: the include tokens (no
leading `-`) are empty or all substrings of the searchable text, and no
exclude token (leading `-` stripped) is a substring of it. -/
def retainedSpec (filterKeywords : List String) (e : Event) : Prop :=
  ((filterKeywords.filter (fun k => !jsStartsWith k "-")).map jsToLower = [] ∨
    ∀ t ∈ (filterKeywords.filter (fun k => !jsStartsWith k "-")).map jsToLower,
      strContains (eventSearchText e) t = true) ∧
  ∀ t ∈ (filterKeywords.filter (fun k => jsStartsWith k "-")).map
      (fun k => jsToLower (k.drop 1)),
    strContains (eventSearchText e) t = false

/-- Claim C6: `filterEventsByKeywords` retains an event iff the include
tokens are empty or all occur in the lower-cased `title description
location` text and no exclude token occurs in it; an empty keyword list is
the identity. -/
theorem filterEventsByKeywords_spec (events : List Event)
    (filterKeywords : List String) (e : Event) :
    (e ∈ filterEventsByKeywords events filterKeywords ↔
      e ∈ events ∧ retainedSpec filterKeywords e) ∧
    filterEventsByKeywords events [] = events := by
  refine ⟨?_, rfl⟩
  rcases hk : filterKeywords with _ | ⟨k, ks⟩
  · simp [filterEventsByKeywords, retainedSpec]
  · rw [filterEventsByKeywords]
    simp only [List.length_cons, Nat.succ_ne_zero, beq_iff_eq, if_neg,
      if_false]
    rw [List.mem_filter]
    constructor
    · rintro ⟨he, hm⟩
      refine ⟨he, ?_⟩
      simp only [eventMatchesKeywords, Bool.and_eq_true, Bool.or_eq_true,
        List.all_eq_true, beq_iff_eq, List.length_eq_zero,
        Bool.not_eq_true'] at hm
      simp only [retainedSpec]
      exact hm
    · rintro ⟨he, hm⟩
      refine ⟨he, ?_⟩
      simp only [retainedSpec] at hm
      simp only [eventMatchesKeywords, Bool.and_eq_true, Bool.or_eq_true,
        List.all_eq_true, beq_iff_eq, List.length_eq_zero,
        Bool.not_eq_true']
      exact hm

/-! ### Retry lemmas for C5 -/

/-- The retry loop invokes the operation at least once from any attempt. -/
lemma retryAux_attempt_lower {α : Type} (op : Nat → Except JsError α) (b : Rat)
    (j : Nat → Rat) : ∀ rem a, a + 1 ≤ (retryAux op b j a rem).2.1
  | 0, a => by
    cases h : op a with
    | ok v => simp [retryAux, h]
    | error e => simp [retryAux, h]
  | rem + 1, a => by
    cases h : op a with
    | ok v => simp [retryAux, h]
    | error e =>
      by_cases hr : isRetryableError e
      · have ih := retryAux_attempt_lower op b j rem (a + 1)
        simp only [retryAux, h, hr, if_true]
        omega
      · simp [retryAux, h, hr]

/-- The retry loop makes at most `remaining + 1` further invocations. -/
lemma retryAux_attempt_upper {α : Type} (op : Nat → Except JsError α) (b : Rat)
    (j : Nat → Rat) : ∀ rem a, (retryAux op b j a rem).2.1 ≤ a + rem + 1
  | 0, a => by
    cases h : op a with
    | ok v => simp [retryAux, h]
    | error e => simp [retryAux, h]
  | rem + 1, a => by
    cases h : op a with
    | ok v => simp [retryAux, h]
    | error e =>
      by_cases hr : isRetryableError e
      · have ih := retryAux_attempt_upper op b j rem (a + 1)
        simp only [retryAux, h, hr, if_true]
        omega
      · simp [retryAux, h, hr]

/-- A non-retryable failure propagates at once, with no sleeps. -/
lemma retryAux_nonretryable {α : Type} (op : Nat → Except JsError α) (b : Rat)
    (j : Nat → Rat) (rem a : Nat) (e : JsError) (h : op a = .error e)
    (hr : isRetryableError e = false) :
    retryAux op b j a rem = (.error e, a + 1, []) := by
  cases rem <;> simp [retryAux, h, hr]

/-- The slept delays are exactly `b * 2 ^ attempt + jitter attempt` for the
attempts that were retried. -/
lemma retryAux_delays {α : Type} (op : Nat → Except JsError α) (b : Rat)
    (j : Nat → Rat) : ∀ rem a, (retryAux op b j a rem).2.2 =
      (List.range ((retryAux op b j a rem).2.1 - 1 - a)).map
        (fun i => b * 2 ^ (a + i) + j (a + i))
  | 0, a => by
    cases h : op a with
    | ok v => simp [retryAux, h]
    | error e => simp [retryAux, h]
  | rem + 1, a => by
    cases h : op a with
    | ok v => simp [retryAux, h]
    | error e =>
      by_cases hr : isRetryableError e
      · have ih := retryAux_delays op b j rem (a + 1)
        have hlow := retryAux_attempt_lower op b j rem (a + 1)
        simp only [retryAux, h, hr, if_true]
        have hn : (retryAux op b j (a + 1) rem).2.1 - 1 - a =
            ((retryAux op b j (a + 1) rem).2.1 - 1 - (a + 1)) + 1 := by omega
        rw [hn, List.range_succ_eq_map, List.map_cons, List.map_map, ih]
        have hfun : ((fun i => b * 2 ^ (a + i) + j (a + i)) ∘ Nat.succ) =
            (fun i => b * 2 ^ (a + 1 + i) + j (a + 1 + i)) := by
          funext i
          have hx : a + (i + 1) = a + 1 + i := by omega
          simp [Function.comp, Nat.succ_eq_add_one, hx]
        rw [hfun]
        simp
      · simp [retryAux, h, hr]

/-- When every invocation fails with a retryable error, the loop uses all
attempts and propagates the last error. -/
lemma retryAux_exhaust {α : Type} (op : Nat → Except JsError α) (b : Rat)
    (j : Nat → Rat) (es : Nat → JsError) (hop : ∀ i, op i = .error (es i))
    (hret : ∀ i, isRetryableError (es i) = true) :
    ∀ rem a, (retryAux op b j a rem).1 = .error (es (a + rem)) ∧
      (retryAux op b j a rem).2.1 = a + rem + 1
  | 0, a => by simp [retryAux, hop a]
  | rem + 1, a => by
    have ih := retryAux_exhaust op b j es hop hret rem (a + 1)
    simp only [retryAux, hop a, hret a, if_true]
    have hx : a + 1 + rem = a + (rem + 1) := by omega
    rw [hx] at ih
    exact ⟨ih.1, by rw [ih.2]⟩

/-- Claim C5: with the source defaults (`maxRetries = 3`, `baseDelay =
1000`), `retryOperation` makes at most 4 invocations; a first failure that
is not retryable propagates immediately after a single invocation with no
sleep; the slept delays are exactly `1000 * 2 ^ attempt + jitter attempt`
for each retried attempt (attempt starting at 0); and when every invocation
fails retryably, all 4 attempts are used and the last error propagates. -/
theorem retryOperation_contract {α : Type} (op : Nat → Except JsError α)
    (jitter : Nat → Rat) :
    (retryOperation op 3 1000 jitter).2.1 ≤ 4 ∧
    (∀ e, op 0 = .error e → isRetryableError e = false →
      retryOperation op 3 1000 jitter = (.error e, 1, [])) ∧
    ((retryOperation op 3 1000 jitter).2.2 =
      (List.range ((retryOperation op 3 1000 jitter).2.1 - 1)).map
        (fun attempt => 1000 * 2 ^ attempt + jitter attempt)) ∧
    (∀ es : Nat → JsError, (∀ i, op i = .error (es i)) →
      (∀ i, isRetryableError (es i) = true) →
      (retryOperation op 3 1000 jitter).1 = .error (es 3) ∧
      (retryOperation op 3 1000 jitter).2.1 = 4) := by
  refine ⟨?_, ?_, ?_, ?_⟩
  · have := retryAux_attempt_upper op 1000 jitter 3 0
    simpa [retryOperation] using this
  · intro e h hr
    simpa [retryOperation] using retryAux_nonretryable op 1000 jitter 3 0 e h hr
  · have := retryAux_delays op 1000 jitter 3 0
    simpa [retryOperation] using this
  · intro es hop hret
    have := retryAux_exhaust op 1000 jitter es hop hret 3 0
    simpa [retryOperation] using this

/-! ### Batch-sender lemmas for C4 -/

/-- Did the (retried) primary channel succeed for message `i`? -/
def primaryOk (env : SendEnv) (i : Nat) : Bool :=
  match primaryResult env i with
  | .ok _ => true
  | .error _ => false

/-- Did the (retried) fallback channel succeed for message `i`? -/
def fallbackOk (env : SendEnv) (i : Nat) : Bool :=
  match fallbackResult env i with
  | .ok _ => true
  | .error _ => false

/-- Tracker effect of one message: one `emailsSent` when either channel
succeeds, one `emailsFailed` only on a double failure, one error record per
primary failure plus one more per double failure, retries untouched. -/
lemma sendOneEmail_spec (env : SendEnv) (i : Nat) (msg : QueuedEmail)
    (m : Metrics) :
    (sendOneEmail env i msg m).emailsSent =
      m.emailsSent + (if primaryOk env i || fallbackOk env i then 1 else 0) ∧
    (sendOneEmail env i msg m).emailsFailed =
      m.emailsFailed + (if !primaryOk env i && !fallbackOk env i then 1 else 0) ∧
    (sendOneEmail env i msg m).errors.length =
      m.errors.length + (if !primaryOk env i then 1 else 0) +
        (if !primaryOk env i && !fallbackOk env i then 1 else 0) ∧
    (sendOneEmail env i msg m).retriesPerformed = m.retriesPerformed := by
  cases hp : primaryResult env i with
  | ok v =>
    simp [sendOneEmail, hp, primaryOk, Metrics.incrementEmailsSent]
  | error e =>
    cases hf : fallbackResult env i with
    | ok v =>
      simp [sendOneEmail, hp, hf, primaryOk, fallbackOk, Metrics.addError,
        Metrics.incrementEmailsSent]
    | error f =>
      simp [sendOneEmail, hp, hf, primaryOk, fallbackOk, Metrics.addError,
        Metrics.incrementEmailsFailed]

/-- Counting over `range (n+1)` with an index offset splits off position 0. -/
lemma range_filter_shift (p : Nat → Bool) (i n : Nat) :
    ((List.range (n + 1)).filter (fun k => p (i + k))).length =
      (if p i then 1 else 0) +
        ((List.range n).filter (fun k => p (i + 1 + k))).length := by
  rw [List.range_succ_eq_map, List.filter_cons]
  have h1 : ((List.range n).map Nat.succ).filter (fun k => p (i + k)) =
      ((List.range n).filter (fun k => p (i + 1 + k))).map Nat.succ := by
    rw [List.filter_map]
    congr 1
    apply List.filter_congr
    intro a _
    have hx : i + (a + 1) = i + 1 + a := by omega
    simp [Function.comp, Nat.succ_eq_add_one, hx]
  by_cases hp : p i
  · simp [hp, h1]
    omega
  · simp [hp, h1]

/-- Tracker counters over the whole message loop, from any start index. -/
lemma sendAux_spec (env : SendEnv) : ∀ (queue : List QueuedEmail) (i : Nat)
    (m : Metrics),
    (sendAux env i queue m).emailsSent =
      m.emailsSent + ((List.range queue.length).filter
        (fun k => primaryOk env (i + k) || fallbackOk env (i + k))).length ∧
    (sendAux env i queue m).emailsFailed =
      m.emailsFailed + ((List.range queue.length).filter
        (fun k => !primaryOk env (i + k) && !fallbackOk env (i + k))).length ∧
    (sendAux env i queue m).errors.length =
      m.errors.length + ((List.range queue.length).filter
        (fun k => !primaryOk env (i + k))).length +
      ((List.range queue.length).filter
        (fun k => !primaryOk env (i + k) && !fallbackOk env (i + k))).length ∧
    (sendAux env i queue m).retriesPerformed = m.retriesPerformed
  | [], i, m => by simp [sendAux]
  | msg :: rest, i, m => by
    have ih := sendAux_spec env rest (i + 1) (sendOneEmail env i msg m)
    have hone := sendOneEmail_spec env i msg m
    obtain ⟨ih1, ih2, ih3, ih4⟩ := ih
    obtain ⟨h1, h2, h3, h4⟩ := hone
    rw [sendAux]
    refine ⟨?_, ?_, ?_, ?_⟩
    · rw [List.length_cons,
        range_filter_shift (fun k => primaryOk env k || fallbackOk env k) i
          rest.length, ih1, h1]
      omega
    · rw [List.length_cons,
        range_filter_shift (fun k => !primaryOk env k && !fallbackOk env k) i
          rest.length, ih2, h2]
      omega
    · rw [List.length_cons,
        range_filter_shift (fun k => !primaryOk env k) i rest.length,
        range_filter_shift (fun k => !primaryOk env k && !fallbackOk env k) i
          rest.length, ih3, h3]
      omega
    · rw [ih4, h4]

/-- Claim C4 (amended): across `sendEmailsBatched`, `emailsSent` grows by
one exactly for each message whose (retried) primary or fallback send
succeeds; `emailsFailed` grows by one exactly for each message failing on
both channels after full retry; and the error list grows by one record per
primary failure plus one more per double failure — so a message that fails
on the primary channel but succeeds on the fallback does record one error
(the primary failure), though it counts as sent and not as failed. -/
theorem sendEmailsBatched_counters (env : SendEnv) (queue : List QueuedEmail)
    (m : Metrics) :
    (sendEmailsBatched env queue m).emailsSent =
      m.emailsSent + ((List.range queue.length).filter
        (fun i => primaryOk env i || fallbackOk env i)).length ∧
    (sendEmailsBatched env queue m).emailsFailed =
      m.emailsFailed + ((List.range queue.length).filter
        (fun i => !primaryOk env i && !fallbackOk env i)).length ∧
    (sendEmailsBatched env queue m).errors.length =
      m.errors.length + ((List.range queue.length).filter
        (fun i => !primaryOk env i)).length +
      ((List.range queue.length).filter
        (fun i => !primaryOk env i && !fallbackOk env i)).length := by
  obtain ⟨h1, h2, h3, h4⟩ := sendAux_spec env queue 0 m
  simp only [Nat.zero_add] at h1 h2 h3
  simp only [sendEmailsBatched]
  exact ⟨h1, h2, h3⟩

/-- A send environment whose primary channel always throws a non-retryable
error and whose fallback always succeeds. -/
def envC4 : SendEnv :=
  { primaryAttempts := fun _ _ => .error { message := "denied by policy" }
    fallbackAttempts := fun _ _ => .ok ()
    primaryJitter := fun _ _ => 0
    fallbackJitter := fun _ _ => 0 }

/-- A concrete queued message. -/
def msgC4 : QueuedEmail :=
  .errorNotice "user@example.com" "subject" "body"

/-- Counterexample to C4 as stated: one message failing on the primary
channel and sent via the fallback ends with `emailsSent = 1` and
`emailsFailed = 0`, but the run does record an error (the primary failure),
contradicting "contributes no error record". -/
theorem sendEmailsBatched_fallback_error_recorded_cex :
    (sendEmailsBatched envC4 [msgC4] {}).emailsSent = 1 ∧
    (sendEmailsBatched envC4 [msgC4] {}).emailsFailed = 0 ∧
    (sendEmailsBatched envC4 [msgC4] {}).errors =
      [{ message := "denied by policy"
         context := "Sending email to user@example.com" }] := by
  decide

/-! ### Lemmas for C10: the retry counter is never incremented -/

/-- A substring of `b` is a substring of `a ++ b`. -/
lemma hasSub_append_right : ∀ (a b n : Chars), hasSub b n = true →
    hasSub (a ++ b) n = true
  | [], b, n, h => h
  | c :: t, b, [], h => by simp [hasSub]
  | c :: t, b, m :: ms, h => by
    have ih := hasSub_append_right t b (m :: ms) h
    simp [hasSub, ih]

/-- A substring of `a` is a substring of `a ++ b`. -/
lemma hasSub_append_left : ∀ (a b n : Chars), hasSub a n = true →
    hasSub (a ++ b) n = true
  | a, b, [], h => by cases a <;> cases b <;> simp [hasSub]
  | [], b, m :: ms, h => by simp [hasSub] at h
  | c :: t, b, m :: ms, h => by
    rw [List.cons_append]
    simp only [hasSub, Bool.or_eq_true] at h ⊢
    rcases h with h | h
    · left
      have hp := List.isPrefixOf_iff_prefix.mp h
      exact List.isPrefixOf_iff_prefix.mpr (hp.trans (List.prefix_append _ b))
    · right
      exact hasSub_append_left t b (m :: ms) h

/-- The per-group tracker update never touches `retriesPerformed`. -/
lemma fetchGroupMetrics_retries (svc : CalendarService) (m : Metrics)
    (g : String × CalendarGroup) :
    (fetchGroupMetrics svc m g).retriesPerformed = m.retriesPerformed := by
  cases h : svc.fetchCalendar g.2.calendarId g.2.dateRange with
  | ok v =>
    simp [fetchGroupMetrics, h, Metrics.incrementCalendars, Metrics.addEvents]
  | error e => simp [fetchGroupMetrics, h, Metrics.addError]

/-- The whole fetch loop never touches `retriesPerformed`. -/
lemma fetchFold_retries (svc : CalendarService) :
    ∀ (gs : List (String × CalendarGroup)) (st : FetchOutcome),
      ((gs.foldl (fetchStep svc) st).tracker.retriesPerformed =
        st.tracker.retriesPerformed)
  | [], st => rfl
  | g :: gs, st => by
    rw [List.foldl_cons, fetchFold_retries svc gs]
    exact fetchGroupMetrics_retries svc st.tracker g

/-- The admin report renders the line `• Retries Performed: 0` whenever the
summary's retry counter is 0. -/
lemma adminBody_retries_zero (s : RunSummary)
    (h : s.metrics.retriesPerformed = 0) :
    strContains (generateAdminSummary s) "Retries Performed: 0" = true := by
  rw [strContains, generateAdminSummary]
  simp only [h, String.data_append, List.append_assoc]
  iterate 20 apply hasSub_append_right
  rw [show (toString (0 : Nat)) = "0" by decide]
  rw [← List.append_assoc]
  apply hasSub_append_left
  decide

/-- Claim C10: across any whole run, `retriesPerformed` stays 0 — no
pipeline component ever calls `incrementRetries` (which would add 1), so
the admin report always shows `Retries Performed: 0` no matter how many
retries actually occurred inside `retryOperation`. -/
theorem run_retriesPerformed_zero (svc : CalendarService) (env : SendEnv)
    (now : JsDate) (rows : List ConfigRow) (executionTimeMs : Nat) :
    (sendDailyEventSummary svc env now rows
        executionTimeMs).tracker.retriesPerformed = 0 ∧
    (∀ m : Metrics,
      (m.incrementRetries).retriesPerformed = m.retriesPerformed + 1) ∧
    strContains (sendDailyEventSummary svc env now rows
        executionTimeMs).adminBody "Retries Performed: 0" = true := by
  have h1 : (fetchCalendarDataBatched svc now (loadConfiguration rows)
      {}).tracker.retriesPerformed = 0 := by
    rw [fetchCalendarDataBatched, fetchFold_retries]
  have h2 := (sendAux_spec env
    (buildEmailQueue (fetchCalendarDataBatched svc now
      (loadConfiguration rows) {}).cache) 0
    (fetchCalendarDataBatched svc now (loadConfiguration rows) {}).tracker).2.2.2
  have htr : (sendDailyEventSummary svc env now rows
      executionTimeMs).tracker.retriesPerformed = 0 := by
    have heq : (sendDailyEventSummary svc env now rows executionTimeMs).tracker =
        sendEmailsBatched env
          (buildEmailQueue (fetchCalendarDataBatched svc now
            (loadConfiguration rows) {}).cache)
          (fetchCalendarDataBatched svc now (loadConfiguration rows) {}).tracker :=
      rfl
    rw [heq, sendEmailsBatched, h2, h1]
  refine ⟨htr, fun m => rfl, ?_⟩
  have hb : (sendDailyEventSummary svc env now rows executionTimeMs).adminBody =
      generateAdminSummary (getSummary (sendDailyEventSummary svc env now rows
        executionTimeMs).tracker executionTimeMs) := rfl
  rw [hb]
  apply adminBody_retries_zero
  simpa [getSummary] using htr

/-! ### Grouping lemmas for C1 -/

/-- `insertRecipient` written with the key named and the pair built outside
the branch. -/
lemma insertRecipient_eq (now : JsDate) (groups : List (String × CalendarGroup))
    (r : Recipient) : insertRecipient now groups r =
    if groups.any (fun g => g.1 == recipKey now r) then
      groups.map (fun g =>
        (g.1, if g.1 == recipKey now r then
          { g.2 with recipients := g.2.recipients ++ [r] } else g.2))
    else
      groups ++ [(recipKey now r,
        { calendarId := r.calendarId, dateRange := recipDateRange now r,
          recipients := [r] })] := by
  have hdef : insertRecipient now groups r =
      (if groups.any (fun g => g.1 == recipKey now r) then
        groups.map (fun g =>
          if g.1 == recipKey now r then
            (g.1, { g.2 with recipients := g.2.recipients ++ [r] })
          else g)
      else
        groups ++ [(recipKey now r,
          { calendarId := r.calendarId, dateRange := recipDateRange now r,
            recipients := [r] })]) := rfl
  rw [hdef]
  by_cases hany : (groups.any fun g => g.1 == recipKey now r) = true
  · rw [if_pos hany, if_pos hany]
    apply List.map_eq_map_iff.mpr
    intro g _
    by_cases hg : (g.1 == recipKey now r) = true
    · rw [if_pos hg, if_pos hg]
    · rw [if_neg hg, if_neg hg]
  · rw [if_neg hany, if_neg hany]

/-- One grouping step preserves the loop invariant: keys stay distinct,
each group's recipient list is exactly the processed recipients with that
key, the keys are exactly the processed recipients' keys, and each key is
the group-key of its group's calendar and interval. -/
lemma insertRecipient_inv (now : JsDate) (r : Recipient)
    (processed : List Recipient) (groups : List (String × CalendarGroup))
    (h1 : (groups.map Prod.fst).Nodup)
    (h2 : ∀ kg ∈ groups,
      kg.2.recipients = processed.filter (fun x => recipKey now x == kg.1))
    (h3 : ∀ k, k ∈ groups.map Prod.fst ↔ ∃ x ∈ processed, recipKey now x = k)
    (h4 : ∀ kg ∈ groups, kg.1 = groupKeyOf kg.2.calendarId kg.2.dateRange) :
    ((insertRecipient now groups r).map Prod.fst).Nodup ∧
    (∀ kg ∈ insertRecipient now groups r,
      kg.2.recipients = (processed ++ [r]).filter
        (fun x => recipKey now x == kg.1)) ∧
    (∀ k, k ∈ (insertRecipient now groups r).map Prod.fst ↔
      ∃ x ∈ processed ++ [r], recipKey now x = k) ∧
    (∀ kg ∈ insertRecipient now groups r,
      kg.1 = groupKeyOf kg.2.calendarId kg.2.dateRange) := by
  rw [insertRecipient_eq]
  by_cases hany : (groups.any fun g => g.1 == recipKey now r) = true
  · rw [if_pos hany]
    have hkeys : (groups.map (fun g =>
        (g.1, if g.1 == recipKey now r then
          { g.2 with recipients := g.2.recipients ++ [r] } else g.2))).map
          Prod.fst = groups.map Prod.fst := by
      rw [List.map_map]
      rfl
    have hkeymem : recipKey now r ∈ groups.map Prod.fst := by
      obtain ⟨g, hg, hgk⟩ := List.any_eq_true.mp hany
      exact List.mem_map.mpr ⟨g, hg, (beq_iff_eq.mp hgk)⟩
    refine ⟨?_, ?_, ?_, ?_⟩
    · rw [hkeys]; exact h1
    · intro kg hkg
      obtain ⟨g, hgmem, rfl⟩ := List.mem_map.mp hkg
      by_cases hb : (g.1 == recipKey now r) = true
      · rw [if_pos hb]
        show g.2.recipients ++ [r] = _
        rw [List.filter_append, ← h2 g hgmem]
        have hrg : (recipKey now r == g.1) = true := by
          rw [beq_iff_eq] at hb ⊢
          exact hb.symm
        simp [hrg]
      · rw [if_neg hb]
        show g.2.recipients = _
        rw [List.filter_append, ← h2 g hgmem]
        have hrg : (recipKey now r == g.1) = false := by
          rw [Bool.not_eq_true, beq_eq_false_iff_ne] at hb
          rw [beq_eq_false_iff_ne]
          exact fun hx => hb hx.symm
        simp [hrg]
    · intro k
      rw [hkeys, h3 k]
      constructor
      · rintro ⟨x, hx, hxk⟩
        exact ⟨x, List.mem_append_left _ hx, hxk⟩
      · rintro ⟨x, hx, hxk⟩
        rcases List.mem_append.mp hx with hx | hx
        · exact ⟨x, hx, hxk⟩
        · rw [List.mem_singleton] at hx
          subst hx
          subst hxk
          exact (h3 _).mp hkeymem
    · intro kg hkg
      obtain ⟨g, hgmem, rfl⟩ := List.mem_map.mp hkg
      by_cases hb : (g.1 == recipKey now r) = true
      · rw [if_pos hb]
        exact h4 g hgmem
      · rw [if_neg hb]
        exact h4 g hgmem
  · rw [if_neg hany]
    have hnot : ∀ g ∈ groups, (g.1 == recipKey now r) = false := by
      intro g hg
      by_contra hx
      rw [Bool.not_eq_false] at hx
      exact hany (List.any_eq_true.mpr ⟨g, hg, hx⟩)
    have hnotin : recipKey now r ∉ groups.map Prod.fst := by
      intro hmem
      obtain ⟨g, hg, hgk⟩ := List.mem_map.mp hmem
      have hf := hnot g hg
      rw [hgk] at hf
      simp at hf
    refine ⟨?_, ?_, ?_, ?_⟩
    · rw [List.map_append]
      rw [List.nodup_append]
      refine ⟨h1, by simp, ?_⟩
      intro a ha
      simp only [List.map_cons, List.map_nil, List.mem_singleton]
      intro hb
      subst hb
      exact hnotin ha
    · intro kg hkg
      rcases List.mem_append.mp hkg with hkg | hkg
      · rw [List.filter_append, ← h2 kg hkg]
        have hrg : (recipKey now r == kg.1) = false := by
          rw [beq_eq_false_iff_ne]
          intro hx
          have hf := hnot kg hkg
          rw [← hx] at hf
          simp at hf
        simp [hrg]
      · rw [List.mem_singleton] at hkg
        subst hkg
        show [r] = _
        rw [List.filter_append]
        have hproc : processed.filter
            (fun x => recipKey now x == recipKey now r) = [] := by
          apply List.filter_eq_nil_iff.mpr
          intro x hx
          simp only [beq_iff_eq]
          intro hk
          exact hnotin ((h3 _).mpr ⟨x, hx, hk⟩)
        rw [hproc]
        simp
    · intro k
      rw [List.map_append]
      simp only [List.map_cons, List.map_nil, List.mem_append,
        List.mem_singleton]
      constructor
      · rintro (hk | hk)
        · obtain ⟨x, hx, hxk⟩ := (h3 k).mp hk
          exact ⟨x, Or.inl hx, hxk⟩
        · subst hk
          exact ⟨r, Or.inr rfl, rfl⟩
      · rintro ⟨x, hx, hxk⟩
        rcases hx with hx | hx
        · exact Or.inl ((h3 k).mpr ⟨x, hx, hxk⟩)
        · subst hx
          exact Or.inr hxk.symm
    · intro kg hkg
      rcases List.mem_append.mp hkg with hkg | hkg
      · exact h4 kg hkg
      · rw [List.mem_singleton] at hkg
        subst hkg
        rfl


/-- The grouping loop establishes the invariant for the whole input. -/
lemma buildGroups_inv (now : JsDate) : ∀ (rest processed : List Recipient)
    (groups : List (String × CalendarGroup)),
    ((groups.map Prod.fst).Nodup ∧
     (∀ kg ∈ groups,
       kg.2.recipients = processed.filter (fun x => recipKey now x == kg.1)) ∧
     (∀ k, k ∈ groups.map Prod.fst ↔ ∃ x ∈ processed, recipKey now x = k) ∧
     (∀ kg ∈ groups, kg.1 = groupKeyOf kg.2.calendarId kg.2.dateRange)) →
    (((rest.foldl (insertRecipient now) groups).map Prod.fst).Nodup ∧
     (∀ kg ∈ rest.foldl (insertRecipient now) groups,
       kg.2.recipients = (processed ++ rest).filter
         (fun x => recipKey now x == kg.1)) ∧
     (∀ k, k ∈ (rest.foldl (insertRecipient now) groups).map Prod.fst ↔
       ∃ x ∈ processed ++ rest, recipKey now x = k) ∧
     (∀ kg ∈ rest.foldl (insertRecipient now) groups,
       kg.1 = groupKeyOf kg.2.calendarId kg.2.dateRange))
  | [], processed, groups, h => by simpa using h
  | r :: rest, processed, groups, h => by
    have hstep := insertRecipient_inv now r processed groups h.1 h.2.1
      h.2.2.1 h.2.2.2
    have hres := buildGroups_inv now rest (processed ++ [r])
      (insertRecipient now groups r)
      ⟨hstep.1, hstep.2.1, hstep.2.2.1, hstep.2.2.2⟩
    rw [List.foldl_cons]
    have hassoc : processed ++ [r] ++ rest = processed ++ (r :: rest) := by
      simp
    rw [hassoc] at hres
    exact hres

/-- Claim C1: after frequency filtering, `fetchCalendarDataBatched`
performs exactly one external fetch per group entry (`fetched`/`cache` are
one-per-group, in order); the group keys — built from (calendarId,
interval-start epoch, interval-end epoch) — are pairwise distinct, hence no
distinct (calendarId, interval) argument triple is fetched twice; each
group's recipient list consists exactly of the gate-passing recipients with
that key; and every gate-passing recipient appears in exactly one group's
recipient list. -/
theorem fetchCalendarDataBatched_once_per_key (svc : CalendarService)
    (now : JsDate) (recipients : List Recipient) (tracker : Metrics) :
    (fetchCalendarDataBatched svc now recipients tracker).fetched =
      (buildCalendarGroups now (activeRecipients now recipients)).map
        fetchArgsOf ∧
    (fetchCalendarDataBatched svc now recipients tracker).cache =
      (buildCalendarGroups now (activeRecipients now recipients)).map
        (fetchGroupEntry svc) ∧
    ((buildCalendarGroups now (activeRecipients now recipients)).map
      Prod.fst).Nodup ∧
    (fetchCalendarDataBatched svc now recipients tracker).fetched.Nodup ∧
    (∀ kg ∈ buildCalendarGroups now (activeRecipients now recipients),
      kg.2.recipients = (activeRecipients now recipients).filter
        (fun x => recipKey now x == kg.1)) ∧
    (∀ k, k ∈ (buildCalendarGroups now
        (activeRecipients now recipients)).map Prod.fst ↔
      ∃ x ∈ activeRecipients now recipients, recipKey now x = k) ∧
    (∀ x ∈ activeRecipients now recipients,
      ∃ kg, (kg ∈ buildCalendarGroups now (activeRecipients now recipients) ∧
          x ∈ kg.2.recipients) ∧
        ∀ kg2, (kg2 ∈ buildCalendarGroups now
            (activeRecipients now recipients) ∧ x ∈ kg2.2.recipients) →
          kg2 = kg) := by
  have hinv := buildGroups_inv now (activeRecipients now recipients) [] []
    ⟨by simp, by simp, by simp, by simp⟩
  rw [List.nil_append] at hinv
  obtain ⟨hnodup, hrec, hkeys, hkeyform⟩ := hinv
  have hcache : ∀ (gs : List (String × CalendarGroup)) (st : FetchOutcome),
      (gs.foldl (fetchStep svc) st).cache =
        st.cache ++ gs.map (fetchGroupEntry svc) := by
    intro gs
    induction gs with
    | nil => intro st; simp
    | cons g gs ih =>
      intro st
      rw [List.foldl_cons, ih]
      simp [fetchStep]
  have hfetched : ∀ (gs : List (String × CalendarGroup)) (st : FetchOutcome),
      (gs.foldl (fetchStep svc) st).fetched =
        st.fetched ++ gs.map fetchArgsOf := by
    intro gs
    induction gs with
    | nil => intro st; simp
    | cons g gs ih =>
      intro st
      rw [List.foldl_cons, ih]
      simp [fetchStep]
  have hc : (fetchCalendarDataBatched svc now recipients tracker).cache =
      (buildCalendarGroups now (activeRecipients now recipients)).map
        (fetchGroupEntry svc) := by
    rw [fetchCalendarDataBatched, hcache]
    simp [buildCalendarGroups]
  have hf : (fetchCalendarDataBatched svc now recipients tracker).fetched =
      (buildCalendarGroups now (activeRecipients now recipients)).map
        fetchArgsOf := by
    rw [fetchCalendarDataBatched, hfetched]
    simp [buildCalendarGroups]
  refine ⟨hf, hc, hnodup, ?_, hrec, hkeys, ?_⟩
  · rw [hf]
    apply List.Nodup.of_map (fun t : String × Int × Int =>
      t.1 ++ "|" ++ toString t.2.1 ++ "|" ++ toString t.2.2)
    have hmm : ((buildCalendarGroups now
        (activeRecipients now recipients)).map fetchArgsOf).map
        (fun t : String × Int × Int =>
          t.1 ++ "|" ++ toString t.2.1 ++ "|" ++ toString t.2.2) =
        (buildCalendarGroups now (activeRecipients now recipients)).map
          Prod.fst := by
      rw [List.map_map]
      apply List.map_eq_map_iff.mpr
      intro kg hkg
      have := hkeyform kg hkg
      simp only [Function.comp, fetchArgsOf]
      rw [this, groupKeyOf]
    rw [hmm]
    exact hnodup
  · intro x hx
    have hkmem : recipKey now x ∈ (buildCalendarGroups now
        (activeRecipients now recipients)).map Prod.fst :=
      (hkeys _).mpr ⟨x, hx, rfl⟩
    obtain ⟨kg, hkgmem, hkgk⟩ := List.mem_map.mp hkmem
    refine ⟨kg, ⟨hkgmem, ?_⟩, ?_⟩
    · rw [hrec kg hkgmem]
      rw [List.mem_filter]
      exact ⟨hx, by rw [hkgk]; simp⟩
    · rintro kg2 ⟨hkg2mem, hkg2rec⟩
      have hx2 : recipKey now x == kg2.1 := by
        have := hrec kg2 hkg2mem
        rw [this, List.mem_filter] at hkg2rec
        exact hkg2rec.2
      have hkeq : kg2.1 = kg.1 := by
        rw [beq_iff_eq] at hx2
        rw [← hx2, hkgk]
      exact List.inj_on_of_nodup_map hnodup hkg2mem hkgmem hkeq

/-! ### Reconciliation lemmas for C3 -/

/-- The cache entries the consolidation's inner loop visits for `email`:
one per occurrence of the email in a group's recipient list, in loop
order. -/
def contributions (cache : List (String × CacheEntry)) (email : String) :
    List CacheEntry :=
  cache.flatMap (fun kc => kc.2.recipients.filterMap
    (fun r => if r.email == email then some kc.2 else none))

/-- The calendar source pushed for a successful entry. -/
def mkCalSource (c : CacheEntry) : CalSource :=
  { calendar := c.calendarName, events := c.events }

/-- The fresh consolidation value created on first sight of an email. -/
def emptyRd (entry : CacheEntry) (r : Recipient) : RecipientData :=
  { recipient := r, calendars := [], dateRange := entry.dateRange,
    hasErrors := false, errors := [] }

/-- The per-occurrence update of an email's consolidation value. -/
def updateRd (entry : CacheEntry) (rd : RecipientData) : RecipientData :=
  if entry.success then
    { rd with calendars := rd.calendars ++ [mkCalSource entry] }
  else
    { rd with hasErrors := true,
              errors := rd.errors ++ [((match entry.calendarName with
                | some n => n
                | none => "Unknown"), entry.error.getD "")] }

/-- `contributions` restated over an explicit (entry, recipient) pair
list. -/
def contribOfPairs (pairs : List (CacheEntry × Recipient)) (email : String) :
    List CacheEntry :=
  pairs.filterMap (fun pr => if pr.2.email == email then some pr.1 else none)

/-- The (entry, recipient) pairs the nested consolidation loops visit, in
order. -/
def pairsOf (cache : List (String × CacheEntry)) :
    List (CacheEntry × Recipient) :=
  cache.flatMap (fun kc => kc.2.recipients.map (fun r => (kc.2, r)))

/-- `consolidateStep` with the pair built outside the branch. -/
lemma consolidateStep_eq (entry : CacheEntry)
    (acc : List (String × RecipientData)) (r : Recipient) :
    consolidateStep entry acc r =
    (if acc.any (fun p => p.1 == r.email) then acc
     else acc ++ [(r.email, emptyRd entry r)]).map
      (fun p => (p.1, if p.1 == r.email then updateRd entry p.2 else p.2)) := by
  have hdef : consolidateStep entry acc r =
      (if acc.any (fun p => p.1 == r.email) then acc
       else acc ++ [(r.email, emptyRd entry r)]).map
        (fun p => if p.1 == r.email then (p.1, updateRd entry p.2) else p) :=
    rfl
  rw [hdef]
  apply List.map_eq_map_iff.mpr
  intro p _
  by_cases hp : (p.1 == r.email) = true
  · rw [if_pos hp, if_pos hp]
  · rw [if_neg hp, if_neg hp]

/-- `contribOfPairs` distributes over appending pair lists. -/
lemma contribOfPairs_append (pairs1 pairs2 : List (CacheEntry × Recipient))
    (e : String) : contribOfPairs (pairs1 ++ pairs2) e =
      contribOfPairs pairs1 e ++ contribOfPairs pairs2 e :=
  List.filterMap_append _ _ _

/-- `contribOfPairs` on a single pair. -/
lemma contribOfPairs_single (entry : CacheEntry) (r : Recipient) (e : String) :
    contribOfPairs [(entry, r)] e = if r.email == e then [entry] else [] := by
  rw [contribOfPairs]
  by_cases h : (r.email == e) = true <;> simp [List.filterMap, h]

/-- The two contribution views agree. -/
lemma contributions_eq_pairs (cache : List (String × CacheEntry)) (e : String) :
    contributions cache e = contribOfPairs (pairsOf cache) e := by
  induction cache with
  | nil => rfl
  | cons kc rest ih =>
    rw [contributions, pairsOf, List.flatMap_cons, List.flatMap_cons,
      contribOfPairs, List.filterMap_append, List.filterMap_map]
    rw [contributions, pairsOf, contribOfPairs] at ih
    rw [ih]
    rfl

/-- The nested consolidation loops equal one fold over the visited pairs. -/
lemma consolidateFold_pairs : ∀ (cache : List (String × CacheEntry))
    (acc : List (String × RecipientData)),
    cache.foldl (fun acc kc =>
      kc.2.recipients.foldl (consolidateStep kc.2) acc) acc =
    (pairsOf cache).foldl (fun acc pr => consolidateStep pr.1 acc pr.2) acc
  | [], acc => rfl
  | kc :: rest, acc => by
    rw [List.foldl_cons, consolidateFold_pairs rest]
    rw [show pairsOf (kc :: rest) =
      (kc.2.recipients.map (fun r => (kc.2, r))) ++ pairsOf rest from by
        rw [pairsOf, List.flatMap_cons]
        exact rfl]
    rw [List.foldl_append, List.foldl_map]

/-- `consolidate` as a single fold over the visited pairs. -/
lemma consolidate_eq (cache : List (String × CacheEntry)) :
    consolidate cache =
      (pairsOf cache).foldl (fun acc pr => consolidateStep pr.1 acc pr.2) [] :=
  consolidateFold_pairs cache []


/-- One consolidation step preserves the loop invariant: emails stay
distinct, the collected emails are exactly those seen so far, and each
entry's `hasErrors`/`calendars` are determined by its contributions so
far. -/
lemma consolidateStep_inv (entry : CacheEntry) (r : Recipient)
    (pairs : List (CacheEntry × Recipient))
    (acc : List (String × RecipientData))
    (h1 : (acc.map Prod.fst).Nodup)
    (h2 : ∀ e, e ∈ acc.map Prod.fst ↔ ∃ pr ∈ pairs, pr.2.email = e)
    (h3 : ∀ p ∈ acc,
      p.2.hasErrors = (contribOfPairs pairs p.1).any (fun c => !c.success) ∧
      p.2.calendars = (contribOfPairs pairs p.1).filterMap
        (fun c => if c.success then some (mkCalSource c) else none)) :
    ((consolidateStep entry acc r).map Prod.fst).Nodup ∧
    (∀ e, e ∈ (consolidateStep entry acc r).map Prod.fst ↔
      ∃ pr ∈ pairs ++ [(entry, r)], pr.2.email = e) ∧
    (∀ p ∈ consolidateStep entry acc r,
      p.2.hasErrors = (contribOfPairs (pairs ++ [(entry, r)]) p.1).any
        (fun c => !c.success) ∧
      p.2.calendars = (contribOfPairs (pairs ++ [(entry, r)]) p.1).filterMap
        (fun c => if c.success then some (mkCalSource c) else none)) := by
  rw [consolidateStep_eq]
  have hext : ∀ e, contribOfPairs (pairs ++ [(entry, r)]) e =
      contribOfPairs pairs e ++ (if r.email == e then [entry] else []) := by
    intro e
    rw [contribOfPairs_append, contribOfPairs_single]
  have hfst : ∀ l : List (String × RecipientData),
      ((l.map (fun p => (p.1, if p.1 == r.email then updateRd entry p.2
        else p.2))).map Prod.fst) = l.map Prod.fst := by
    intro l
    rw [List.map_map]
    rfl
  by_cases hany : (acc.any fun p => p.1 == r.email) = true
  · rw [if_pos hany]
    have hkeymem : r.email ∈ acc.map Prod.fst := by
      obtain ⟨p, hp, hpk⟩ := List.any_eq_true.mp hany
      exact List.mem_map.mpr ⟨p, hp, (beq_iff_eq.mp hpk)⟩
    refine ⟨by rw [hfst]; exact h1, ?_, ?_⟩
    · intro e
      rw [hfst, h2 e]
      constructor
      · rintro ⟨pr, hpr, hpre⟩
        exact ⟨pr, List.mem_append_left _ hpr, hpre⟩
      · rintro ⟨pr, hpr, hpre⟩
        rcases List.mem_append.mp hpr with hpr | hpr
        · exact ⟨pr, hpr, hpre⟩
        · rw [List.mem_singleton] at hpr
          subst hpr
          subst hpre
          exact (h2 _).mp hkeymem
    · intro p hp
      obtain ⟨q, hqmem, rfl⟩ := List.mem_map.mp hp
      have hq := h3 q hqmem
      by_cases hb : (q.1 == r.email) = true
      · rw [if_pos hb]
        have hre : (r.email == q.1) = true := by
          rw [beq_iff_eq] at hb ⊢
          exact hb.symm
        rw [hext, List.any_append, List.filterMap_append, if_pos hre]
        by_cases hs : entry.success = true
        · simp [updateRd, hs, hq.1, hq.2, List.filterMap]
        · have hsf : entry.success = false := by
            rwa [Bool.not_eq_true] at hs
          simp [updateRd, hsf, hq.1, hq.2, List.filterMap]
      · rw [if_neg hb]
        have hre : (r.email == q.1) = false := by
          rw [Bool.not_eq_true, beq_eq_false_iff_ne] at hb
          rw [beq_eq_false_iff_ne]
          exact fun hx => hb hx.symm
        rw [hext, List.any_append, List.filterMap_append, hre]
        simp [hq.1, hq.2]
  · rw [if_neg hany]
    have hnot : ∀ p ∈ acc, (p.1 == r.email) = false := by
      intro p hp
      by_contra hx
      rw [Bool.not_eq_false] at hx
      exact hany (List.any_eq_true.mpr ⟨p, hp, hx⟩)
    have hnotin : r.email ∉ acc.map Prod.fst := by
      intro hmem
      obtain ⟨p, hp, hpk⟩ := List.mem_map.mp hmem
      have hf := hnot p hp
      rw [hpk] at hf
      simp at hf
    have hnopairs : contribOfPairs pairs r.email = [] := by
      apply List.filterMap_eq_nil_iff.mpr
      intro pr hpr
      by_cases hpe : (pr.2.email == r.email) = true
      · exact absurd ((h2 _).mpr ⟨pr, hpr, beq_iff_eq.mp hpe⟩) hnotin
      · rw [if_neg hpe]
    have hnew : (fun p : String × RecipientData =>
        (p.1, if p.1 == r.email then updateRd entry p.2 else p.2))
          (r.email, emptyRd entry r) =
        (r.email, updateRd entry (emptyRd entry r)) := by
      simp
    refine ⟨?_, ?_, ?_⟩
    · rw [List.map_append, List.map_append, hfst]
      simp only [List.map_cons, List.map_nil, hnew]
      rw [List.nodup_append]
      refine ⟨h1, by simp, ?_⟩
      intro a ha
      simp only [List.mem_singleton]
      intro hb
      subst hb
      exact hnotin ha
    · intro e
      rw [List.map_append, List.map_append, hfst]
      simp only [List.map_cons, List.map_nil, hnew, List.mem_append,
        List.mem_singleton]
      constructor
      · rintro (hk | hk)
        · obtain ⟨pr, hpr, hpre⟩ := (h2 e).mp hk
          exact ⟨pr, Or.inl hpr, hpre⟩
        · subst hk
          exact ⟨(entry, r), Or.inr rfl, rfl⟩
      · rintro ⟨pr, hpr, hpre⟩
        rcases hpr with hpr | hpr
        · exact Or.inl ((h2 e).mpr ⟨pr, hpr, hpre⟩)
        · subst hpr
          exact Or.inr hpre.symm
    · intro p hp
      rw [List.map_append] at hp
      rcases List.mem_append.mp hp with hp | hp
      · obtain ⟨q, hqmem, rfl⟩ := List.mem_map.mp hp
        have hq := h3 q hqmem
        rw [if_neg (by rw [hnot q hqmem]; exact Bool.false_ne_true)]
        have hre : (r.email == q.1) = false := by
          have hb := hnot q hqmem
          rw [beq_eq_false_iff_ne] at hb ⊢
          exact fun hx => hb hx.symm
        rw [hext, List.any_append, List.filterMap_append, hre]
        simp [hq.1, hq.2]
      · simp only [List.map_cons, List.map_nil, hnew,
          List.mem_singleton] at hp
        subst hp
        rw [hext, hnopairs]
        simp only [beq_self_eq_true, if_true, List.nil_append]
        by_cases hs : entry.success = true
        · simp [updateRd, emptyRd, hs, List.filterMap]
        · have hsf : entry.success = false := by
            rwa [Bool.not_eq_true] at hs
          simp [updateRd, emptyRd, hsf, List.filterMap]


/-- The consolidation fold establishes the invariant for all pairs. -/
lemma consolidateFold_inv : ∀ (restPairs donePairs : List (CacheEntry × Recipient))
    (acc : List (String × RecipientData)),
    ((acc.map Prod.fst).Nodup ∧
     (∀ e, e ∈ acc.map Prod.fst ↔ ∃ pr ∈ donePairs, pr.2.email = e) ∧
     (∀ p ∈ acc,
       p.2.hasErrors = (contribOfPairs donePairs p.1).any (fun c => !c.success) ∧
       p.2.calendars = (contribOfPairs donePairs p.1).filterMap
         (fun c => if c.success then some (mkCalSource c) else none))) →
    (((restPairs.foldl (fun acc pr => consolidateStep pr.1 acc pr.2) acc).map
        Prod.fst).Nodup ∧
     (∀ e, e ∈ (restPairs.foldl (fun acc pr => consolidateStep pr.1 acc pr.2)
        acc).map Prod.fst ↔
       ∃ pr ∈ donePairs ++ restPairs, pr.2.email = e) ∧
     (∀ p ∈ restPairs.foldl (fun acc pr => consolidateStep pr.1 acc pr.2) acc,
       p.2.hasErrors = (contribOfPairs (donePairs ++ restPairs) p.1).any
         (fun c => !c.success) ∧
       p.2.calendars = (contribOfPairs (donePairs ++ restPairs) p.1).filterMap
         (fun c => if c.success then some (mkCalSource c) else none)))
  | [], done, acc, h => by simpa using h
  | pr :: rest, done, acc, h => by
    have hstep := consolidateStep_inv pr.1 pr.2 done acc h.1 h.2.1 h.2.2
    have hres := consolidateFold_inv rest (done ++ [pr])
      (consolidateStep pr.1 acc pr.2) ⟨hstep.1, hstep.2.1, hstep.2.2⟩
    rw [List.foldl_cons]
    have hassoc : done ++ [pr] ++ rest = done ++ (pr :: rest) := by simp
    rw [hassoc] at hres
    exact hres

/-- Keyword filtering only removes events. -/
lemma mem_of_filterEventsByKeywords (events : List Event) (kws : List String)
    (e : Event) (h : e ∈ filterEventsByKeywords events kws) : e ∈ events := by
  rw [filterEventsByKeywords] at h
  by_cases hk : (kws.length == 0) = true
  · rwa [if_pos hk] at h
  · rw [if_neg hk] at h
    exact (List.mem_filter.mp h).1

/-- Claim C3: for each consolidated recipient, `hasErrors` holds iff some
contributing group failed and `calendars` collects exactly the successful
contributions; the queued message is the error notice iff every one of the
recipient's groups failed; and otherwise the queued normal summary's
events are drawn only from succeeding groups.  In particular a recipient
with one failing and one succeeding source ends with `hasErrors = true`,
exactly one calendar source, and a normal message (see the witness). -/
theorem sendDailyEventSummary_reconciliation
    (cache : List (String × CacheEntry)) (p : String × RecipientData)
    (hp : p ∈ consolidate cache) :
    contributions cache p.1 ≠ [] ∧
    p.2.hasErrors = (contributions cache p.1).any (fun c => !c.success) ∧
    p.2.calendars = (contributions cache p.1).filterMap
      (fun c => if c.success then some (mkCalSource c) else none) ∧
    ((∃ subject body, processRecipient p = .errorNotice p.1 subject body) ↔
      (contributions cache p.1).all (fun c => !c.success) = true) ∧
    (∀ subject events dn prefs dr,
      processRecipient p = .summary p.1 subject events dn prefs dr →
      ∀ ev ∈ events, ∃ c ∈ contributions cache p.1,
        c.success = true ∧ ev ∈ c.events) := by
  have hinv := consolidateFold_inv (pairsOf cache) [] []
    ⟨by simp, by simp, by simp⟩
  rw [List.nil_append] at hinv
  rw [← consolidate_eq] at hinv
  obtain ⟨hnodup, hkeys, hchar⟩ := hinv
  have hpc := hchar p hp
  have hcp : contribOfPairs (pairsOf cache) p.1 = contributions cache p.1 :=
    (contributions_eq_pairs cache p.1).symm
  rw [hcp] at hpc
  have hmem : p.1 ∈ (consolidate cache).map Prod.fst :=
    List.mem_map.mpr ⟨p, hp, rfl⟩
  obtain ⟨pr, hpr, hpre⟩ := (hkeys p.1).mp hmem
  have hne : contributions cache p.1 ≠ [] := by
    rw [← hcp]
    apply List.ne_nil_of_mem (a := pr.1)
    apply List.mem_filterMap.mpr
    exact ⟨pr, hpr, by rw [if_pos (beq_iff_eq.mpr hpre)]⟩
  refine ⟨hne, hpc.1, hpc.2, ?_, ?_⟩
  · by_cases hcond : (p.2.hasErrors && decide (p.2.calendars.length = 0)) = true
    · constructor
      · intro _
        rw [Bool.and_eq_true] at hcond
        have hlen : p.2.calendars.length = 0 := of_decide_eq_true hcond.2
        have hnil : p.2.calendars = [] := List.length_eq_zero.mp hlen
        rw [hpc.2] at hnil
        rw [List.all_eq_true]
        intro c hc
        have hcn := List.filterMap_eq_nil_iff.mp hnil c hc
        by_cases hs : c.success = true
        · rw [if_pos hs] at hcn
          exact absurd hcn (by simp)
        · have hsf : c.success = false := by rwa [Bool.not_eq_true] at hs
          rw [hsf]
          rfl
      · intro _
        exact ⟨_, _, by rw [processRecipient, if_pos hcond]⟩
    · constructor
      · rintro ⟨sub, body, heq⟩
        rw [processRecipient, if_neg hcond] at heq
        exact absurd heq (by simp)
      · intro hall
        exfalso
        apply hcond
        rw [Bool.and_eq_true]
        constructor
        · rw [hpc.1]
          obtain ⟨c0, hc0⟩ := List.exists_mem_of_ne_nil _ hne
          rw [List.any_eq_true]
          refine ⟨c0, hc0, ?_⟩
          rw [List.all_eq_true] at hall
          exact hall c0 hc0
        · apply decide_eq_true
          rw [hpc.2, List.length_eq_zero]
          apply List.filterMap_eq_nil_iff.mpr
          intro c hc
          rw [List.all_eq_true] at hall
          have hcf := hall c hc
          rw [Bool.not_eq_true'] at hcf
          rw [if_neg (by rw [hcf]; exact Bool.false_ne_true)]
  · intro subject events dn prefs dr heq
    by_cases hcond : (p.2.hasErrors && decide (p.2.calendars.length = 0)) = true
    · rw [processRecipient, if_pos hcond] at heq
      exact absurd heq (by simp)
    · rw [processRecipient, if_neg hcond] at heq
      simp only [QueuedEmail.summary.injEq] at heq
      obtain ⟨-, -, hevents, -, -, -⟩ := heq
      intro ev hev
      rw [← hevents] at hev
      rw [sortEventsByStart] at hev
      have hev2 := List.mem_mergeSort.mp hev
      have hev3 : ev ∈ p.2.calendars.flatMap (fun c => c.events) := by
        cases hfk : p.2.recipient.preferences.filterKeywords with
        | none =>
          rw [hfk] at hev2
          exact hev2
        | some kws =>
          rw [hfk] at hev2
          exact mem_of_filterEventsByKeywords _ kws ev hev2
      obtain ⟨src, hsrc, hevsrc⟩ := List.exists_of_mem_flatMap hev3
      rw [hpc.2] at hsrc
      obtain ⟨c, hc, hfc⟩ := List.mem_filterMap.mp hsrc
      by_cases hs : c.success = true
      · rw [if_pos hs] at hfc
        have hsrceq : mkCalSource c = src := Option.some.inj hfc
        refine ⟨c, hc, hs, ?_⟩
        rw [← hsrceq] at hevsrc
        exact hevsrc
      · rw [if_neg hs] at hfc
        exact absurd hfc (by simp)

/-- A concrete date range for the C3 witness scenario. -/
def drW : DateRange :=
  { startDate := { days := 0, ms := 0 }, endDate := { days := 1, ms := 0 },
    description := "today" }
/-- Witness recipient record for calendar 1 of 2. -/
def recipM1 : Recipient :=
  { email := "u@x.com", calendarId := "c1@x.com", preferences := {}
    isMultiCalendar := true, calendarIndex := 0, totalCalendars := 2 }
/-- The same recipient's record for calendar 2 of 2. -/
def recipM2 : Recipient :=
  { email := "u@x.com", calendarId := "c2@x.com", preferences := {}
    isMultiCalendar := true, calendarIndex := 1, totalCalendars := 2 }
/-- A concrete event on the succeeding calendar. -/
def eventM : Event :=
  { title := "Standup", description := "daily sync", location := "room 1",
    startTime := 3600000 }
/-- A cache with one succeeding and one failing group for one email. -/
def cacheC3 : List (String × CacheEntry) :=
  [("c1@x.com|0|86400000",
    { calendarName := some "Cal One", events := [eventM],
      recipients := [recipM1], dateRange := drW, success := true,
      error := none }),
   ("c2@x.com|0|86400000",
    { calendarName := none, events := [], recipients := [recipM2],
      dateRange := drW, success := false,
      error := some "Calendar not found" })]
/-- The single consolidated entry of `cacheC3` (checked by `decide` in the
witness). -/
def pC3 : String × RecipientData :=
  ("u@x.com",
   { recipient := recipM1
     calendars := [{ calendar := some "Cal One", events := [eventM] }]
     dateRange := drW
     hasErrors := true
     errors := [("Unknown", "Calendar not found")] })

/-- Witness for C3: the mixed two-source recipient of `cacheC3` has
`hasErrors = true`, exactly one (successful) calendar source, and is not
routed to the error notice. -/
theorem sendDailyEventSummary_reconciliation_witness :
    contributions cacheC3 pC3.1 ≠ [] ∧
    pC3.2.hasErrors = (contributions cacheC3 pC3.1).any (fun c => !c.success) ∧
    pC3.2.calendars = (contributions cacheC3 pC3.1).filterMap
      (fun c => if c.success then some (mkCalSource c) else none) ∧
    ((∃ subject body, processRecipient pC3 = .errorNotice pC3.1 subject body) ↔
      (contributions cacheC3 pC3.1).all (fun c => !c.success) = true) ∧
    (∀ subject events dn prefs dr,
      processRecipient pC3 = .summary pC3.1 subject events dn prefs dr →
      ∀ ev ∈ events, ∃ c ∈ contributions cacheC3 pC3.1,
        c.success = true ∧ ev ∈ c.events) :=
  sendDailyEventSummary_reconciliation cacheC3 pC3 (by decide)

end CalScript
